import Mathlib

/-!
Verification of the log-following core of `slurmtail` (src/main.rs).

The file models, as a shallow embedding:
* the tail-window locator (the `start_position` computation inside
  `mon_logfile`, main.rs lines 67-106) over a file modelled as a
  `List Nat` of bytes (newline = 10);
* the file-appearance wait loop (main.rs lines 33-64) over a trace of
  open results and a clock trace;
* the follow loop (main.rs lines 119-146) over a trace of `read_line`
  results and a clock trace;
* the resume-marker store (`save_turd`, `read_turd`, `clean_turd`,
  main.rs lines 150-199) over a filesystem modelled as an association
  list from path strings to file contents.
-/

namespace Slurmtail

/-! ## Tail-window locator (main.rs 67-106) -/

/-- Inner backward scan of one chunk (main.rs 87-96):
`for i in (0..chunk_size).rev() { if buffer[i] == b'\n' { newline_count += 1;
if newline_count == 149 { position += i as u64 + 1; break; } } }`.
`scanChunkRev chunk i count` scans indices `i-1, i-2, ..., 0` of `chunk`
with running newline count `count`; it returns the final count together
with `some (i0 + 1)` when the count reached 149 at index `i0` (the amount
added to the chunk-start position by the `break`), else `none`. -/
def scanChunkRev (chunk : List Nat) : Nat → Nat → Nat × Option Nat
  | 0, count => (count, none)
  | i + 1, count =>
    if chunk.getD i 0 = 10 then
      if count + 1 = 149 then (count + 1, some (i + 1))
      else scanChunkRev chunk i (count + 1)
    else scanChunkRev chunk i count

/-- Outer backward loop of the locator (main.rs 79-97):
`while position > 0 && newline_count < 149 { let chunk_size = min(8192, position);
position -= chunk_size; seek(position); read_exact(buffer[0..chunk_size]); ... }`.
The loop is embedded with explicit fuel; each iteration decreases
`position` by `min 8192 position ≥ 1`, so `fuel = position` suffices for
the loop to reach its exit condition.  Returns the final
`(position, newline_count)` pair. -/
def scanLoop (file : List Nat) : Nat → Nat → Nat → Nat × Nat
  | 0, position, count => (position, count)
  | fuel + 1, position, count =>
    if 0 < position ∧ count < 149 then
      match scanChunkRev ((file.drop (position - min 8192 position)).take
          (min 8192 position)) (min 8192 position) count with
      | (count2, some brk) => (position - min 8192 position + brk, count2)
      | (count2, none) => scanLoop file fuel (position - min 8192 position) count2
    else (position, count)

/-- The `start_position` computation of `mon_logfile` (main.rs 67-106):
file size 0 gives 0; otherwise run the backward scan from the end, and
if the scan reached the beginning with fewer than 149 newlines found,
start from the beginning, else from the scan's final position. -/
def start_position (file : List Nat) : Nat :=
  if file.length = 0 then 0
  else
    if (scanLoop file file.length file.length 0).1 = 0
        ∧ (scanLoop file file.length file.length 0).2 < 149 then 0
    else (scanLoop file file.length file.length 0).1

/-- Number of lines `BufRead::read_line` yields when reading a byte
sequence to end-of-file: each newline byte ends a line, and a nonempty
trailing segment without a terminator counts as one (partial) line. -/
def countLines : List Nat → Nat
  | [] => 0
  | [b] => if b = 10 then 1 else 1
  | b :: rest => (if b = 10 then 1 else 0) + countLines rest

/-- The file consisting of the line "a\n" repeated `n` times
(byte 97 = 'a', byte 10 = newline). -/
def aFile (n : Nat) : List Nat := (List.replicate n [97, 10]).flatten

/-! ## File-appearance wait loop (main.rs 33-64) -/

/-- Result of one `File::open` attempt.  The source matches only
`Ok(f)` versus `Err(_)`; the error kinds are distinguished here so that
we can state which kinds the loop absorbs. -/
inductive OpenResult
  | ok
  | errNotFound
  | errOther
deriving DecidableEq

/-- Outcome of the wait loop.  `found n` models `break f` after the
open attempt at iteration `n` succeeded; `appearanceTimeout` models
`return Err("Timeout waiting for log file")`; `running` means the fuel
was exhausted with the loop still going (the loop has no other exit). -/
inductive AwaitOutcome
  | found (iter : Nat)
  | appearanceTimeout
  | running
deriving DecidableEq

/-- Value of `i64::MAX`, the sentinel used for `file_appear_timeout` when
`no_file_timeout` is set (main.rs 19-23). -/
def i64Max : Int := 9223372036854775807

/-- The wait loop of `mon_logfile` (main.rs 33-64).  `opens n` is the
result of the `File::open` attempt in iteration `n`; `clock n` is the
elapsed whole seconds `start_time.until(time_now).get_seconds()` as
observed at the timeout check of iteration `n` (an `i64` in the source).
On `Ok` the loop breaks with the handle; on any `Err(_)` it sleeps one
second, then exits with the timeout error if the elapsed time exceeds
`fileAppearTimeout`, else retries. -/
def awaitLoop (opens : Nat → OpenResult) (clock : Nat → Int)
    (fileAppearTimeout : Int) : Nat → Nat → AwaitOutcome
  | 0, _ => .running
  | fuel + 1, n =>
    match opens n with
    | .ok => .found n
    | _ =>
      if clock n > fileAppearTimeout then .appearanceTimeout
      else awaitLoop opens clock fileAppearTimeout fuel (n + 1)

/-! ## Follow loop (main.rs 112-146) -/

/-- Result of one `reader.read_line(&mut line)` call: `data bytes` is a
successful read returning `bytes_read = bytes.length` (empty means the
reader is at the current end of file), `ioError` a failing read whose
error the `?` operator propagates. -/
inductive ReadResult
  | data (bytes : List Nat)
  | ioError
deriving DecidableEq

/-- Outcome of the follow loop.  The Rust function has return type
`Result<(), _>`, so `ok` is a value of its type, but the loop body only
ever produces the stall-timeout error or a propagated read error;
`running` means the fuel was exhausted with the loop still going. -/
inductive FollowOutcome
  | ok
  | stallTimeout
  | ioError
  | running
deriving DecidableEq

/-- The follow loop of `mon_logfile` (main.rs 119-146), together with
the list of lines it prints.  `reads n` is the result of the
`read_line` call of iteration `n` and `clock n` the wall-clock time
(in whole seconds) observed right after it; `lu` is `last_updated`.
If `bytes_read > 0` the line is printed and `last_updated := time_now`;
otherwise, if `time_now - last_updated > timeout` the loop returns the
stall-timeout error, else it sleeps one second and retries. -/
def followLoop (reads : Nat → ReadResult) (clock : Nat → Int)
    (timeout : Int) : Nat → Nat → Int → FollowOutcome × List (List Nat)
  | 0, _, _ => (.running, [])
  | fuel + 1, n, lu =>
    match reads n with
    | .ioError => (.ioError, [])
    | .data bytes =>
      if 0 < bytes.length then
        let r := followLoop reads clock timeout fuel (n + 1) (clock n)
        (r.1, bytes :: r.2)
      else if clock n - lu > timeout then (.stallTimeout, [])
      else followLoop reads clock timeout fuel (n + 1) lu

/-- The value of `last_updated` entering iteration `n` of the follow
loop, starting from `lu0`: it is replaced by `clock k` exactly at the
iterations `k` whose read returned at least one byte. -/
def luAt (reads : Nat → ReadResult) (clock : Nat → Int) (lu0 : Int) :
    Nat → Int
  | 0 => lu0
  | n + 1 =>
    match reads n with
    | .data bytes => if 0 < bytes.length then clock n else luAt reads clock lu0 n
    | .ioError => luAt reads clock lu0 n

/-- The lines printed by iterations `n, n+1, ..., n+fuel-1` of the
follow loop when no read fails and no stall timeout fires. -/
def printedTrace (reads : Nat → ReadResult) : Nat → Nat → List (List Nat)
  | _, 0 => []
  | n, fuel + 1 =>
    match reads n with
    | .ioError => []
    | .data bytes =>
      if 0 < bytes.length then bytes :: printedTrace reads (n + 1) fuel
      else printedTrace reads (n + 1) fuel

/-! ## Resume-marker store (main.rs 150-199) -/

/-- The filesystem as the marker store sees it: a finite association
list from path strings to file contents (first binding wins). -/
structure FS where
  files : List (String × String)
deriving DecidableEq

/-- Models `read_to_string`: the content stored under a path, if any. -/
def FS.readFile (fs : FS) (p : String) : Option String := fs.files.lookup p

/-- Models `Path::exists`: a path exists when a file is stored under it; the
empty path never exists (`stat("")` fails with `ENOENT`). -/
def FS.pathExists (fs : FS) (p : String) : Bool :=
  p ≠ "" && (fs.readFile p).isSome

/-- Models `File::create` followed by `write_all`: (over)write the file at `p`. -/
def FS.writeFile (fs : FS) (p c : String) : FS :=
  ⟨(p, c) :: fs.files.filter (fun e => e.1 ≠ p)⟩

/-- Models `std::fs::remove_file`: drop the binding at `p`. -/
def FS.removeFile (fs : FS) (p : String) : FS :=
  ⟨fs.files.filter (fun e => e.1 ≠ p)⟩

/-- Models `str::trim` from the Rust standard library: drop whitespace
characters from both ends of the string (restricted to the ASCII
whitespace the claims exercise). -/
def rustTrim (s : String) : String :=
  ⟨((s.data.dropWhile Char.isWhitespace).reverse.dropWhile
      Char.isWhitespace).reverse⟩

/-- Computes `project_dir.join("._slurmtail")` (main.rs 151/171/189). -/
def turd_path (dir : String) : String := dir ++ "/._slurmtail"

/-- Function `save_turd` (main.rs 150-167): write the log path's string form
verbatim into the marker file, overwriting any existing marker. -/
def save_turd (fs : FS) (projectDir logPath : String) : FS :=
  fs.writeFile (turd_path projectDir) logPath

/-- Function `read_turd` (main.rs 170-185): error "No resume file found" when
the marker is absent; otherwise read it, trim the content, and error
"Log file from resume file no longer exists" when the trimmed path
does not exist, else return it. -/
def read_turd (fs : FS) (projectDir : String) : Except String String :=
  let tp := turd_path projectDir
  if fs.pathExists tp = false then .error "No resume file found"
  else
    match fs.readFile tp with
    | none => .error "io error reading resume file"
    | some content =>
      let logPath := rustTrim content
      if fs.pathExists logPath = false then
        .error "Log file from resume file no longer exists"
      else .ok logPath

/-- Which branch `clean_turd` took. -/
inductive CleanReport
  | removed
  | nothingToClean
deriving DecidableEq

/-- Function `clean_turd` (main.rs 188-199): remove the marker if present
(reporting the removal), else report that nothing was found; both
branches return `Ok(())`.  The `remove_file` of the model cannot fail,
so the error side of the `Except` is never produced. -/
def clean_turd (fs : FS) (projectDir : String) :
    Except String (FS × CleanReport) :=
  let tp := turd_path projectDir
  if fs.pathExists tp then .ok (fs.removeFile tp, .removed)
  else .ok (fs, .nothingToClean)

/-! ## Lemmas about the modelled filesystem -/

theorem lookup_filter_ne (l : List (String × String)) (q p : String)
    (h : q ≠ p) : (l.filter (fun e => e.1 ≠ p)).lookup q = l.lookup q := by
  induction l with
  | nil => rfl
  | cons e t ih =>
    by_cases he : e.1 = p
    · rw [List.filter_cons_of_neg (by simp [he]), ih, List.lookup_cons]
      have hne : (q == e.1) = false := by
        simp only [beq_eq_false_iff_ne, ne_eq, he]
        exact h
      rw [hne]
    · rw [List.filter_cons_of_pos (by simp [he])]
      cases e with
      | mk k v =>
        rw [List.lookup_cons, List.lookup_cons, ih]

theorem lookup_filter_self (l : List (String × String)) (p : String) :
    (l.filter (fun e => e.1 ≠ p)).lookup p = none := by
  induction l with
  | nil => rfl
  | cons e t ih =>
    by_cases he : e.1 = p
    · rw [List.filter_cons_of_neg (by simp [he])]
      exact ih
    · rw [List.filter_cons_of_pos (by simp [he]), List.lookup_cons]
      have hne : (p == e.1) = false := by
        simp only [beq_eq_false_iff_ne, ne_eq]
        exact fun hq => he hq.symm
      rw [hne]
      exact ih

theorem turd_path_ne_empty (dir : String) : turd_path dir ≠ "" := by
  intro h
  have hlen : (turd_path dir).length = 0 := by rw [h]; rfl
  rw [turd_path, String.length_append] at hlen
  have h12 : ("/._slurmtail" : String).length = 12 := by decide
  omega

theorem readFile_save (fs : FS) (dir lp : String) :
    (save_turd fs dir lp).readFile (turd_path dir) = some lp := by
  simp [save_turd, FS.writeFile, FS.readFile, List.lookup_cons_self]

theorem pathExists_save (fs : FS) (dir lp : String) :
    (save_turd fs dir lp).pathExists (turd_path dir) = true := by
  simp [FS.pathExists, readFile_save, turd_path_ne_empty dir]

theorem readFile_removeFile_self (fs : FS) (p : String) :
    (fs.removeFile p).readFile p = none := by
  simp only [FS.removeFile, FS.readFile]
  exact lookup_filter_self fs.files p

theorem readFile_removeFile_ne (fs : FS) (p q : String) (h : q ≠ p) :
    (fs.removeFile p).readFile q = fs.readFile q := by
  simp only [FS.removeFile, FS.readFile]
  exact lookup_filter_ne fs.files q p h

theorem pathExists_removeFile_self (fs : FS) (p : String) :
    (fs.removeFile p).pathExists p = false := by
  simp [FS.pathExists, readFile_removeFile_self]

/-! ## Claim C4 (marker round-trip) -/

/-- C4 counterexample: the claim quantifies over every path the store
can write, but for the path of the marker file itself, deleting the
target before the read deletes the marker too, so `read_turd` fails
with the not-found error, not the stale-target error the claim
requires.  Concretely: `save_turd` in directory "d" of the path
"d/._slurmtail", then deletion of that path, then `read_turd`. -/
theorem save_read_roundtrip_cx :
    read_turd ((save_turd ⟨[]⟩ "d" "d/._slurmtail").removeFile
        (rustTrim "d/._slurmtail")) "d" = .error "No resume file found"
    ∧ "No resume file found" ≠ "Log file from resume file no longer exists" := by
  exact ⟨rfl, by decide⟩

/-- C4 (amended): for every directory and every path P the store can
write that is not the marker file itself, `save_turd dir P` followed by
`read_turd dir` returns the trimmed P provided it exists on the
filesystem at read time; if P is deleted before the read, `read_turd`
fails with the stale-target error rather than the not-found error. -/
theorem save_read_roundtrip (fs : FS) (dir lp : String) :
    ((save_turd fs dir lp).pathExists (rustTrim lp) = true →
      read_turd (save_turd fs dir lp) dir = .ok (rustTrim lp))
    ∧ (rustTrim lp ≠ turd_path dir →
      read_turd ((save_turd fs dir lp).removeFile (rustTrim lp)) dir
        = .error "Log file from resume file no longer exists") := by
  constructor
  · intro h1
    simp [read_turd, pathExists_save, readFile_save, h1]
  · intro h2
    have hmark : ((save_turd fs dir lp).removeFile (rustTrim lp)).readFile
        (turd_path dir) = some lp := by
      rw [readFile_removeFile_ne _ _ _ (fun he => h2 he.symm)]
      exact readFile_save fs dir lp
    have hexists : ((save_turd fs dir lp).removeFile (rustTrim lp)).pathExists
        (turd_path dir) = true := by
      simp [FS.pathExists, hmark, turd_path_ne_empty dir]
    simp [read_turd, hexists, hmark, pathExists_removeFile_self]

/-- C4 witness: a concrete round trip through a two-file filesystem. -/
theorem save_read_roundtrip_witness :
    read_turd (save_turd ⟨[("x", "old")]⟩ "d" "x") "d" = .ok (rustTrim "x")
    ∧ read_turd ((save_turd ⟨[("x", "old")]⟩ "d" "x").removeFile (rustTrim "x")) "d"
        = .error "Log file from resume file no longer exists" :=
  ⟨(save_read_roundtrip ⟨[("x", "old")]⟩ "d" "x").1 (by decide),
   (save_read_roundtrip ⟨[("x", "old")]⟩ "d" "x").2 (by decide)⟩

/-! ## Claim C5 (clear semantics) -/

/-- C5: `clean_turd` on a directory with no marker returns `Ok` and
reports the not-found case; after a `save_turd`, `clean_turd` removes
the marker (returning `Ok` and reporting the removal) so that a
subsequent `read_turd` in the same directory fails with the
marker-not-found error. -/
theorem clean_turd_spec (fs : FS) (dir lp : String)
    (h : fs.pathExists (turd_path dir) = false) :
    clean_turd fs dir = .ok (fs, .nothingToClean)
    ∧ clean_turd (save_turd fs dir lp) dir
        = .ok ((save_turd fs dir lp).removeFile (turd_path dir), .removed)
    ∧ read_turd ((save_turd fs dir lp).removeFile (turd_path dir)) dir
        = .error "No resume file found" := by
  refine ⟨by simp [clean_turd, h], by simp [clean_turd, pathExists_save], ?_⟩
  simp [read_turd, pathExists_removeFile_self]

/-- C5 witness: the empty filesystem, directory "d", path "log.txt". -/
theorem clean_turd_spec_witness :
    clean_turd (FS.mk []) "d" = .ok (FS.mk [], .nothingToClean)
    ∧ clean_turd (save_turd (FS.mk []) "d" "log.txt") "d"
        = .ok ((save_turd (FS.mk []) "d" "log.txt").removeFile (turd_path "d"),
            .removed)
    ∧ read_turd ((save_turd (FS.mk []) "d" "log.txt").removeFile (turd_path "d"))
        "d" = .error "No resume file found" :=
  clean_turd_spec ⟨[]⟩ "d" "log.txt" (by decide)

/-! ## Claim C10 (blank marker content) -/

/-- C10: when the marker file exists but its content trims to the
empty string, `read_turd` fails with the stale-target error (the empty
path never exists on the filesystem), not with the marker-not-found
error and not with a parse error. -/
theorem read_turd_blank_marker (fs : FS) (dir c : String)
    (h1 : fs.readFile (turd_path dir) = some c) (h2 : rustTrim c = "") :
    read_turd fs dir = .error "Log file from resume file no longer exists" := by
  have hexists : fs.pathExists (turd_path dir) = true := by
    simp [FS.pathExists, h1, turd_path_ne_empty dir]
  simp [read_turd, hexists, h1, h2, FS.pathExists, turd_path_ne_empty dir]

/-- C10 witness: a marker containing three spaces. -/
theorem read_turd_blank_marker_witness :
    read_turd ⟨[("d/._slurmtail", "   ")]⟩ "d"
      = .error "Log file from resume file no longer exists" :=
  read_turd_blank_marker ⟨[("d/._slurmtail", "   ")]⟩ "d" "   " (by decide)
    (by decide)

/-! ## Claim C6 (await-phase error handling) -/

/-- C6 counterexample: the open attempt at iteration 0 fails with an
error distinct from not-found (a permission-style error), yet the loop
absorbs it, retries, and returns the successful open of iteration 1 —
the error is never surfaced to the caller, contradicting the claim
that only the not-found condition is absorbed and retried. -/
theorem await_absorbs_other_errors :
    awaitLoop (fun k => if k = 0 then .errOther else .ok) (fun k => k + 1)
      120 5 0 = .found 1 := by
  decide

/-- C6 (amended): during the await phase every open failure, not only
file-not-found, is absorbed and retried after the 1-second sleep as
long as the appearance timeout has not elapsed; a `found` result always
comes from a successful open; and with the unbounded sentinel
`i64::MAX` the loop never produces the timeout error (the elapsed
seconds are an `i64`, hence never exceed the sentinel), so it returns
only on a successful open. -/
theorem await_spec (opens : Nat → OpenResult) (clock : Nat → Int)
    (timeout : Int) (fuel n : Nat) :
    (opens n ≠ .ok → clock n ≤ timeout →
      awaitLoop opens clock timeout (fuel + 1) n
        = awaitLoop opens clock timeout fuel (n + 1))
    ∧ (∀ m, awaitLoop opens clock timeout fuel n = .found m → opens m = .ok)
    ∧ ((∀ k, clock k ≤ i64Max) →
      awaitLoop opens clock i64Max fuel n ≠ .appearanceTimeout) := by
  refine ⟨?_, ?_, ?_⟩
  · intro hne hle
    rw [awaitLoop]
    cases ho : opens n with
    | ok => exact absurd ho hne
    | errNotFound => simp [ho, not_lt.mpr hle]
    | errOther => simp [ho, not_lt.mpr hle]
  · induction fuel generalizing n with
    | zero => intro m h; cases h
    | succ fuel ih =>
      intro m h
      rw [awaitLoop] at h
      cases ho : opens n with
      | ok =>
        rw [ho] at h
        cases h
        exact ho
      | errNotFound =>
        rw [ho] at h
        by_cases hc : clock n > timeout
        · simp [hc] at h
        · simp [hc] at h
          exact ih (n + 1) m h
      | errOther =>
        rw [ho] at h
        by_cases hc : clock n > timeout
        · simp [hc] at h
        · simp [hc] at h
          exact ih (n + 1) m h
  · induction fuel generalizing n with
    | zero => intro _ h; cases h
    | succ fuel ih =>
      intro hbound h
      rw [awaitLoop] at h
      cases ho : opens n with
      | ok => rw [ho] at h; cases h
      | errNotFound =>
        rw [ho, if_neg (not_lt.mpr (hbound n))] at h
        exact ih (n + 1) hbound h
      | errOther =>
        rw [ho, if_neg (not_lt.mpr (hbound n))] at h
        exact ih (n + 1) hbound h

/-- C6 witness: a trace of permission-style failures under a constant
clock; the loop retries past the failure and never reports the
appearance timeout under the unbounded sentinel. -/
theorem await_spec_witness :
    awaitLoop (fun _ => .errOther) (fun _ => 5) 120 1 0
      = awaitLoop (fun _ => .errOther) (fun _ => 5) 120 0 1
    ∧ awaitLoop (fun _ => .errOther) (fun _ => 5) i64Max 3 0
        ≠ .appearanceTimeout :=
  ⟨(await_spec (fun _ => .errOther) (fun _ => 5) 120 0 0).1 (by decide) (by decide),
   (await_spec (fun _ => .errOther) (fun _ => 5) 120 3 0).2.2
     (fun _ => by decide)⟩

/-! ## Claim C7 (follow loop never returns normally) -/

/-- C7: the follow loop never produces the `Ok` value of its result
type; reaching the current end of the file within the stall window is
not a terminal condition (the loop just moves to the next iteration
with `last_updated` unchanged); and its only exits are the
stall-timeout error — fired at an end-of-data read whose elapsed time
since the last liveness update exceeds the timeout — and a propagated
error from a failing read. -/
theorem follow_no_normal_return (reads : Nat → ReadResult) (clock : Nat → Int)
    (timeout : Int) :
    (∀ fuel n lu, (followLoop reads clock timeout fuel n lu).1 ≠ .ok)
    ∧ (∀ fuel n lu, reads n = .data [] → clock n - lu ≤ timeout →
        followLoop reads clock timeout (fuel + 1) n lu
          = followLoop reads clock timeout fuel (n + 1) lu)
    ∧ (∀ fuel n lu, (followLoop reads clock timeout fuel n lu).1 = .stallTimeout →
        ∃ k lu2, reads k = .data [] ∧ clock k - lu2 > timeout)
    ∧ (∀ fuel n lu, (followLoop reads clock timeout fuel n lu).1 = .ioError →
        ∃ k, reads k = .ioError) := by
  refine ⟨?_, ?_, ?_, ?_⟩
  · intro fuel
    induction fuel with
    | zero => intro n lu h; cases h
    | succ fuel ih =>
      intro n lu
      rw [followLoop]
      cases ho : reads n with
      | ioError => intro h; cases h
      | data bytes =>
        by_cases hb : 0 < bytes.length
        · simpa [hb] using ih (n + 1) (clock n)
        · by_cases hc : clock n - lu > timeout
          · intro h; simp [hb, hc] at h
          · simpa [hb, hc] using ih (n + 1) lu
  · intro fuel n lu h hle
    rw [followLoop, h]
    simp [not_lt.mpr hle]
  · intro fuel
    induction fuel with
    | zero => intro n lu h; cases h
    | succ fuel ih =>
      intro n lu
      rw [followLoop]
      cases ho : reads n with
      | ioError => intro h; cases h
      | data bytes =>
        by_cases hb : 0 < bytes.length
        · simpa [hb] using ih (n + 1) (clock n)
        · by_cases hc : clock n - lu > timeout
          · intro _
            have hb0 : bytes = [] := List.length_eq_zero.mp (by omega)
            exact ⟨n, lu, hb0 ▸ ho, hc⟩
          · simpa [hb, hc] using ih (n + 1) lu
  · intro fuel
    induction fuel with
    | zero => intro n lu h; cases h
    | succ fuel ih =>
      intro n lu
      rw [followLoop]
      cases ho : reads n with
      | ioError => intro _; exact ⟨n, ho⟩
      | data bytes =>
        by_cases hb : 0 < bytes.length
        · simpa [hb] using ih (n + 1) (clock n)
        · by_cases hc : clock n - lu > timeout
          · intro h; simp [hb, hc] at h
          · simpa [hb, hc] using ih (n + 1) lu

/-- C7 witness: a reader that sits at end of file within the stall
window; the loop continues instead of returning. -/
theorem follow_no_normal_return_witness :
    followLoop (fun _ => .data []) (fun _ => 0) 120 1 0 0
      = followLoop (fun _ => .data []) (fun _ => 0) 120 0 1 0 :=
  (follow_no_normal_return (fun _ => .data []) (fun _ => 0) 120).2.1 0 0 0 rfl
    (by decide)

/-! ## Claim C8 (liveness clock) -/

/-- Invariant feeding the liveness-clock claim: the `last_updated`
value entering any iteration never exceeds the current clock. -/
theorem luAt_le_clock (reads : Nat → ReadResult) (clock : Nat → Int)
    (lu0 : Int) (hmono : ∀ n, clock n ≤ clock (n + 1)) (hlu0 : lu0 ≤ clock 0) :
    ∀ n, luAt reads clock lu0 n ≤ clock n := by
  intro n
  induction n with
  | zero => exact hlu0
  | succ n ih =>
    rw [luAt]
    cases ho : reads n with
    | ioError => exact le_trans ih (hmono n)
    | data bytes =>
      by_cases hb : 0 < bytes.length
      · simpa [hb] using hmono n
      · simpa [hb] using le_trans ih (hmono n)

/-- Auxiliary run lemma: as long as no read fails and every
end-of-data iteration is still within the stall window measured from
the recorded liveness clock, the follow loop keeps running and prints
exactly the nonempty lines it reads, in order. -/
theorem followLoop_luAt_running (reads : Nat → ReadResult) (clock : Nat → Int)
    (timeout : Int) (lu0 : Int)
    (hne : ∀ k, reads k ≠ .ioError)
    (hwin : ∀ k, reads k = .data [] →
      clock k - luAt reads clock lu0 k ≤ timeout) :
    ∀ fuel n, followLoop reads clock timeout fuel n (luAt reads clock lu0 n)
      = (.running, printedTrace reads n fuel) := by
  intro fuel
  induction fuel with
  | zero => intro n; rfl
  | succ fuel ih =>
    intro n
    rw [followLoop, printedTrace]
    cases ho : reads n with
    | ioError => exact absurd ho (hne n)
    | data bytes =>
      by_cases hb : 0 < bytes.length
      · have hl : luAt reads clock lu0 (n + 1) = clock n := by
          rw [luAt, ho]; simp [hb]
        simp only [hb, if_pos]
        rw [← hl, ih (n + 1)]
      · have hb0 : bytes = [] := List.length_eq_zero.mp (by omega)
        subst hb0
        have hc : ¬ clock n - luAt reads clock lu0 n > timeout :=
          not_lt.mpr (hwin n ho)
        have hl : luAt reads clock lu0 (n + 1) = luAt reads clock lu0 n := by
          rw [luAt, ho]; simp
        simp only [hb, hc, if_neg, if_false]
        rw [← hl, ih (n + 1)]

/-- C8: the liveness clock is monotonically non-decreasing within a
session; it is reset (to the current time) exactly at reads that
return at least one byte and kept unchanged at end-of-data reads; and
whenever every end-of-data read happens within the stall window
measured from the current liveness clock, the loop keeps running —
never failing with the stall timeout — and prints every line it
reads. -/
theorem liveness_clock_spec (reads : Nat → ReadResult) (clock : Nat → Int)
    (timeout : Int) (lu0 : Int)
    (hmono : ∀ n, clock n ≤ clock (n + 1)) (hlu0 : lu0 ≤ clock 0) :
    (∀ n, luAt reads clock lu0 n ≤ luAt reads clock lu0 (n + 1))
    ∧ (∀ n bytes, reads n = .data bytes → 0 < bytes.length →
        luAt reads clock lu0 (n + 1) = clock n)
    ∧ (∀ n bytes, reads n = .data bytes → bytes.length = 0 →
        luAt reads clock lu0 (n + 1) = luAt reads clock lu0 n)
    ∧ ((∀ k, reads k ≠ .ioError) →
      (∀ k, reads k = .data [] →
        clock k - luAt reads clock lu0 k ≤ timeout) →
      ∀ fuel, followLoop reads clock timeout fuel 0 lu0
        = (.running, printedTrace reads 0 fuel)) := by
  refine ⟨?_, ?_, ?_, ?_⟩
  · intro n
    rw [luAt]
    cases ho : reads n with
    | ioError => exact le_refl _
    | data bytes =>
      by_cases hb : 0 < bytes.length
      · simpa [hb] using luAt_le_clock reads clock lu0 hmono hlu0 n
      · simp [hb]
  · intro n bytes ho hb
    rw [luAt, ho]
    simp [hb]
  · intro n bytes ho hb
    rw [luAt, ho]
    simp [Nat.not_lt.mpr (Nat.le_of_eq hb)]
  · intro hne hwin fuel
    exact followLoop_luAt_running reads clock timeout lu0 hne hwin fuel 0

/-- C8 witness: one "a" line is read every second; the loop runs and
prints both lines read within the fuel bound. -/
theorem liveness_clock_spec_witness :
    followLoop (fun _ => .data [97]) (fun n => (n : Int)) 120 2 0 0
      = (.running, printedTrace (fun _ => .data [97]) 0 2) :=
  (liveness_clock_spec (fun _ => .data [97]) (fun n => (n : Int)) 120 0
      (fun n => by show (n : Int) ≤ ((n + 1 : Nat) : Int); omega)
      (by show (0 : Int) ≤ ((0 : Nat) : Int); omega)).2.2.2
    (fun k => by decide) (fun k h => absurd h (by decide)) 2

/-! ## Claim C9 (locator invariants) -/

/-- Specification of the inner chunk scan: starting from a newline
count below 149, either the scan finishes without a break and the count
stays below 149, or it breaks with count exactly 149 at an in-range
index whose byte is a newline. -/
theorem scanChunkRev_spec (chunk : List Nat) :
    ∀ i count, count < 149 →
      (∀ c2, scanChunkRev chunk i count = (c2, none) → c2 < 149)
      ∧ (∀ c2 b, scanChunkRev chunk i count = (c2, some b) →
          c2 = 149 ∧ 1 ≤ b ∧ b ≤ i ∧ chunk.getD (b - 1) 0 = 10) := by
  intro i
  induction i with
  | zero =>
    intro count hc
    constructor
    · intro c2 h
      rw [scanChunkRev] at h
      simp only [Prod.mk.injEq] at h
      omega
    · intro c2 b h
      rw [scanChunkRev] at h
      simp only [Prod.mk.injEq] at h
      exact absurd h.2 (by simp)
  | succ i ih =>
    intro count hc
    constructor
    · intro c2 h
      rw [scanChunkRev] at h
      by_cases hn : chunk.getD i 0 = 10
      · rw [if_pos hn] at h
        by_cases h149 : count + 1 = 149
        · rw [if_pos h149] at h
          simp only [Prod.mk.injEq] at h
          exact absurd h.2 (by simp)
        · rw [if_neg h149] at h
          exact (ih (count + 1) (by omega)).1 c2 h
      · rw [if_neg hn] at h
        exact (ih count hc).1 c2 h
    · intro c2 b h
      rw [scanChunkRev] at h
      by_cases hn : chunk.getD i 0 = 10
      · rw [if_pos hn] at h
        by_cases h149 : count + 1 = 149
        · rw [if_pos h149] at h
          simp only [Prod.mk.injEq, Option.some.injEq] at h
          obtain ⟨h1, h2⟩ := h
          refine ⟨by omega, by omega, by omega, ?_⟩
          rw [← h2]
          simpa using hn
        · rw [if_neg h149] at h
          obtain ⟨hc2, h1b, hbi, hg⟩ := (ih (count + 1) (by omega)).2 c2 b h
          exact ⟨hc2, h1b, by omega, hg⟩
      · rw [if_neg hn] at h
        obtain ⟨hc2, h1b, hbi, hg⟩ := (ih count hc).2 c2 b h
        exact ⟨hc2, h1b, by omega, hg⟩

/-- Specification of the backward scan loop: with fuel at least the
starting position and a newline count below 149, it ends either at
position 0 with count still below 149, or at a position in range whose
preceding byte is a newline (the byte after the 149th newline from the
end). -/
theorem scanLoop_spec (file : List Nat) :
    ∀ fuel position count, position ≤ file.length → count < 149 →
      position ≤ fuel →
      ((scanLoop file fuel position count).1 = 0
        ∧ (scanLoop file fuel position count).2 < 149)
      ∨ (1 ≤ (scanLoop file fuel position count).1
        ∧ (scanLoop file fuel position count).1 ≤ file.length
        ∧ file.getD ((scanLoop file fuel position count).1 - 1) 0 = 10) := by
  intro fuel
  induction fuel with
  | zero =>
    intro position count hp hc hf
    have hp0 : position = 0 := by omega
    subst hp0
    rw [scanLoop]
    exact Or.inl ⟨rfl, hc⟩
  | succ fuel ih =>
    intro position count hp hc hf
    rw [scanLoop]
    by_cases hcond : 0 < position ∧ count < 149
    · rw [if_pos hcond]
      have hmin1 : 1 ≤ min 8192 position := by omega
      have hminp : min 8192 position ≤ position := by omega
      split
      · rename_i c2 brk hsc
        obtain ⟨hc2, h1b, hbk, hg⟩ :=
          (scanChunkRev_spec _ (min 8192 position) count hc).2 c2 brk hsc
        refine Or.inr ⟨by omega, by omega, ?_⟩
        have hidx : position - min 8192 position + brk - 1
            = position - min 8192 position + (brk - 1) := by omega
        rw [hidx]
        rw [List.getD_eq_getElem?_getD] at hg ⊢
        rw [List.getElem?_take_of_lt (by omega : brk - 1 < min 8192 position),
          List.getElem?_drop] at hg
        exact hg
      · rename_i c2 hsc
        have hc2 : c2 < 149 :=
          (scanChunkRev_spec _ (min 8192 position) count hc).1 c2 hsc
        exact ih (position - min 8192 position) c2 (by omega) hc2 (by omega)
    · rw [if_neg hcond]
      have hp0 : position = 0 := by omega
      subst hp0
      exact Or.inl ⟨rfl, hc⟩

/-- C9: the locator's offset is at most the file size, and it is
either 0 or the position immediately following a newline byte of the
file; the subsequent seek is therefore in range and streaming never
begins in the middle of a line. -/
theorem start_position_line_boundary (file : List Nat) :
    start_position file ≤ file.length
    ∧ (start_position file = 0
      ∨ (1 ≤ start_position file
        ∧ file.getD (start_position file - 1) 0 = 10)) := by
  rw [start_position]
  by_cases h0 : file.length = 0
  · simp [h0]
  · rw [if_neg h0]
    rcases scanLoop_spec file file.length file.length 0 (le_refl _)
        (by omega) (le_refl _) with ⟨hp, hc⟩ | ⟨h1, hle, hg⟩
    · rw [if_pos ⟨hp, hc⟩]
      exact ⟨Nat.zero_le _, Or.inl rfl⟩
    · rw [if_neg (by omega)]
      exact ⟨hle, Or.inr ⟨h1, hg⟩⟩

/-! ## Claims C1, C2, C3 (tail-window size, evaluated at the
spec's own inputs) -/

set_option maxRecDepth 400000

/-- C1 evaluation: on the file "a\n" repeated 200 times the locator
returns 104, the start of line 53 (not 100, the start of line 51 that
the claim and the source's own comments require), so the initial
output is the last 148 lines, not the last 150. -/
theorem start_position_aFile200 :
    start_position (aFile 200) = 104
    ∧ (aFile 200).drop (start_position (aFile 200)) = aFile 148
    ∧ countLines (aFile 148) = 148 := by
  refine ⟨by decide, by decide, by decide⟩

/-- C2 evaluation: on the file of exactly 149 newline-terminated lines
the locator returns 2 (the start of line 2), not 0 as the claim and
the source's own comment ("or beginning if fewer than 150 lines")
require. -/
theorem start_position_aFile149 :
    start_position (aFile 149) = 2
    ∧ countLines (aFile 149) = 149 := by
  refine ⟨by decide, by decide⟩

/-- C3 evaluation: the file of 149 newline-terminated lines has fewer
than 150 lines, yet reading from the locator's offset yields only its
last 148 lines, not the whole file as the claim's parenthetical
requires. -/
theorem start_position_aFile149_not_whole :
    countLines ((aFile 149).drop (start_position (aFile 149))) = 148
    ∧ (aFile 149).drop (start_position (aFile 149)) ≠ aFile 149
    ∧ start_position (aFile 149) ≠ 0 := by
  refine ⟨by decide, by decide, by decide⟩

end Slurmtail
